import Mathlib

/-
Verification of the tag-resolution and pattern-rendering core of the
image-rename utility (Go).  Pure functions of the source are embedded as
Lean functions; the mutable DateIndexCollector becomes explicit state
passing; Go map values become association lists; fallible operations
return Except.  External collaborators (exif decoding, the filesystem)
are modelled as lookup functions in an environment record, matching the
collaborator interfaces of the design: a metadata source mapping a field
name to a raw string value or a failure, and a stat call returning file
attributes or a failure.
-/

set_option maxRecDepth 8192

namespace ImageRename

/-- Association-list model of a Go map: lookup returns the value stored
under a key, or none when the key is absent. -/
def mget {α β : Type} [DecidableEq α] : List (α × β) → α → Option β
  | [], _ => none
  | (k, v) :: rest, key => if key = k then some v else mget rest key

/-- Association-list model of Go map assignment: overwrite the value if
the key is present, append otherwise. -/
def mset {α β : Type} [DecidableEq α] : List (α × β) → α → β → List (α × β)
  | [], key, val => [(key, val)]
  | (k, v) :: rest, key, val =>
      if key = k then (key, val) :: rest else (k, v) :: mset rest key val

/-- Projection of Go time.Time: the calendar components, the zone name
(Location().String()) and the zone offset in seconds east of UTC.
Derived quantities (Unix seconds, weekday) are computed from these. -/
structure Timestamp where
  year : Int
  month : Nat
  day : Nat
  hour : Nat
  minute : Nat
  second : Nat
  nanosecond : Nat
  locName : String
  offset : Int
deriving DecidableEq

/-- Go zero time.Time: January 1 of year 1, 00:00:00 UTC. -/
def Timestamp.zero : Timestamp :=
  { year := 1, month := 1, day := 1, hour := 0, minute := 0, second := 0,
    nanosecond := 0, locName := "UTC", offset := 0 }

def isLeapYear (y : Int) : Bool :=
  (y % 4 == 0 && y % 100 != 0) || y % 400 == 0

def daysInMonth (y : Int) (m : Nat) : Nat :=
  if m = 2 then (if isLeapYear y then 29 else 28)
  else if m = 4 ∨ m = 6 ∨ m = 9 ∨ m = 11 then 30
  else 31

def digitVal (c : Char) : Option Nat :=
  if c.isDigit then some (c.toNat - 48) else none

def digits2 (a b : Char) : Option Nat := do
  let x ← digitVal a
  let y ← digitVal b
  pure (10 * x + y)

def digits4 (a b c d : Char) : Option Nat := do
  let x ← digits2 a b
  let y ← digits2 c d
  pure (100 * x + y)

/-- Model of Go time.Parse with the fixed layout 2006:01:02 15:04:05
used by the source (constant timestampFormat): the input must be exactly
nineteen characters in that shape with in-range components; the parsed
time carries the UTC location, as Go assigns when the layout has no zone. -/
def parseTimestamp (s : String) : Option Timestamp :=
  match s.data with
  | [y1, y2, y3, y4, c1, m1, m2, c2, d1, d2, sp, h1, h2, c3, n1, n2, c4, s1, s2] =>
    if c1 = ':' ∧ c2 = ':' ∧ sp = ' ' ∧ c3 = ':' ∧ c4 = ':' then
      match digits4 y1 y2 y3 y4, digits2 m1 m2, digits2 d1 d2,
            digits2 h1 h2, digits2 n1 n2, digits2 s1 s2 with
      | some y, some mo, some d, some h, some mi, some se =>
        if 1 ≤ mo ∧ mo ≤ 12 ∧ 1 ≤ d ∧ d ≤ daysInMonth (Int.ofNat y) mo ∧
            h ≤ 23 ∧ mi ≤ 59 ∧ se ≤ 59 then
          some { year := Int.ofNat y, month := mo, day := d, hour := h,
                 minute := mi, second := se, nanosecond := 0,
                 locName := "UTC", offset := 0 }
        else none
      | _, _, _, _, _, _ => none
    else none
  | _ => none

/-- Model of strconv.Itoa / strconv.FormatInt for base ten. -/
def intStr (i : Int) : String :=
  if i < 0 then "-" ++ Nat.repr i.natAbs else Nat.repr i.natAbs

/-- Model of the fmt verb 02d: decimal, zero padded to two digits. -/
def pad2 (n : Nat) : String :=
  if n < 10 then "0" ++ Nat.repr n else Nat.repr n

/-- Model of the fmt verb 06d for the non-negative collector counters:
decimal, zero padded to six digits. -/
def pad6 (n : Nat) : String :=
  let s := Nat.repr n
  if s.length < 6 then String.mk (List.replicate (6 - s.length) '0') ++ s else s

/-- Four-digit zero padding of the year field for the RFC 3339 rendering. -/
def pad4 (y : Int) : String :=
  let s := Nat.repr y.natAbs
  let core := if s.length < 4 then String.mk (List.replicate (4 - s.length) '0') ++ s else s
  if y < 0 then "-" ++ core else core

/-- Days since the Unix epoch of a calendar date (civil-days algorithm). -/
def daysFromCivil (y : Int) (m : Nat) (d : Nat) : Int :=
  let y2 : Int := if m ≤ 2 then y - 1 else y
  let era : Int := Int.fdiv y2 400
  let yoe : Int := y2 - era * 400
  let mp : Int := (Int.ofNat m + 9) % 12
  let doy : Int := Int.fdiv (153 * mp + 2) 5 + Int.ofNat d - 1
  let doe : Int := yoe * 365 + Int.fdiv yoe 4 - Int.fdiv yoe 100 + doy
  era * 146097 + doe - 719468

/-- Go Unix(): seconds since the epoch of the instant the components
denote in their zone. -/
def Timestamp.unix (t : Timestamp) : Int :=
  86400 * daysFromCivil t.year t.month t.day +
    3600 * Int.ofNat t.hour + 60 * Int.ofNat t.minute + Int.ofNat t.second - t.offset

/-- Go Weekday() as a number, Sunday = 0. -/
def Timestamp.weekdayNum (t : Timestamp) : Int :=
  (daysFromCivil t.year t.month t.day + 4) % 7

def weekdayName (n : Int) : String :=
  if n = 0 then "Sunday"
  else if n = 1 then "Monday"
  else if n = 2 then "Tuesday"
  else if n = 3 then "Wednesday"
  else if n = 4 then "Thursday"
  else if n = 5 then "Friday"
  else "Saturday"

/-- Model of time.Format with the RFC 3339 layout: date, time, and the
zone offset, which renders as Z when the offset is zero. -/
def formatRFC3339 (t : Timestamp) : String :=
  let off :=
    if t.offset = 0 then "Z"
    else
      let mag := t.offset.natAbs
      (if t.offset < 0 then "-" else "+") ++ pad2 (mag / 3600) ++ ":" ++ pad2 (mag % 3600 / 60)
  pad4 t.year ++ "-" ++ pad2 t.month ++ "-" ++ pad2 t.day ++ "T" ++
    pad2 t.hour ++ ":" ++ pad2 t.minute ++ ":" ++ pad2 t.second ++ off

/-- TimestampProp from the source: a switch on the first property name,
falling through to the RFC 3339 rendering when no name matches or when
no property was supplied. -/
def TimestampProp (timestamp : Timestamp) (properties : List String) : String :=
  match properties with
  | [] => formatRFC3339 timestamp
  | p :: _ =>
    if p = "Year" then intStr timestamp.year
    else if p = "Month" then pad2 timestamp.month
    else if p = "Day" then pad2 timestamp.day
    else if p = "Hour" then pad2 timestamp.hour
    else if p = "Minute" then pad2 timestamp.minute
    else if p = "Second" then pad2 timestamp.second
    else if p = "Nanosecond" then Nat.repr timestamp.nanosecond
    else if p = "Unix" then intStr timestamp.unix
    else if p = "Weekday" then weekdayName timestamp.weekdayNum
    else if p = "Offset" then timestamp.locName
    else formatRFC3339 timestamp

/-- The ten property names recognised by TimestampProp. -/
def timestampPropNames : List String :=
  ["Year", "Month", "Day", "Hour", "Minute", "Second", "Nanosecond",
   "Unix", "Weekday", "Offset"]

/-- os.FileInfo fields the source reads: Name(), Size(), ModTime(). -/
structure FileMeta where
  name : String
  size : Int
  modTime : Timestamp
deriving DecidableEq

/-- FileProp from the source: switch on the first property name; the
ModTime case forwards the second property (or the empty string when it
is absent) to TimestampProp; unrecognised names yield the empty string. -/
def FileProp (fileMeta : FileMeta) (properties : List String) : String :=
  match properties with
  | [] => ""
  | p :: rest =>
    if p = "Name" then fileMeta.name
    else if p = "ModTime" then TimestampProp fileMeta.modTime [rest.headD ""]
    else if p = "Size" then intStr fileMeta.size
    else ""

/-- DateIndexCollector from the source: a total count and nested
per-year, per-year-month, per-year-month-day counters. -/
structure DateIndexCollector where
  Count : Nat
  ByYear : List (Int × Nat)
  ByMonth : List (Int × List (Nat × Nat))
  ByDay : List (Int × List (Nat × List (Nat × Nat)))
deriving DecidableEq

/-- NewDateIndexCollector: empty maps, zero count. -/
def NewDateIndexCollector : DateIndexCollector :=
  { Count := 0, ByYear := [], ByMonth := [], ByDay := [] }

/-- Len returns the total number of elements counted. -/
def DateIndexCollector.Len (dtic : DateIndexCollector) : Nat := dtic.Count

/-- Add from the source: increment the count and the year bucket, ensure
the nested month and day maps exist, and increment the month and day
buckets of the timestamp. -/
def DateIndexCollector.Add (dtic : DateIndexCollector) (timestamp : Timestamp) : DateIndexCollector :=
  let newCount := dtic.Count + 1
  let newByYear :=
    mset dtic.ByYear timestamp.year ((mget dtic.ByYear timestamp.year).getD 0 + 1)
  let bm :=
    match mget dtic.ByMonth timestamp.year with
    | none => mset dtic.ByMonth timestamp.year []
    | some _ => dtic.ByMonth
  let months := (mget bm timestamp.year).getD []
  let newByMonth :=
    mset bm timestamp.year
      (mset months timestamp.month ((mget months timestamp.month).getD 0 + 1))
  let bd :=
    match mget dtic.ByDay timestamp.year with
    | none => mset dtic.ByDay timestamp.year []
    | some _ => dtic.ByDay
  let bd2 :=
    match mget ((mget bd timestamp.year).getD []) timestamp.month with
    | none =>
        mset bd timestamp.year
          (mset ((mget bd timestamp.year).getD []) timestamp.month [])
    | some _ => bd
  let dmonths := (mget bd2 timestamp.year).getD []
  let days := (mget dmonths timestamp.month).getD []
  let newByDay :=
    mset bd2 timestamp.year
      (mset dmonths timestamp.month
        (mset days timestamp.day ((mget days timestamp.day).getD 0 + 1)))
  { Count := newCount, ByYear := newByYear, ByMonth := newByMonth, ByDay := newByDay }

/-- GetIndexByYear: a Go map read with its zero default. -/
def DateIndexCollector.GetIndexByYear (dtic : DateIndexCollector) (timestamp : Timestamp) : Nat :=
  (mget dtic.ByYear timestamp.year).getD 0

/-- GetIndexByMonth: nested presence checks, zero when any level is absent. -/
def DateIndexCollector.GetIndexByMonth (dtic : DateIndexCollector) (timestamp : Timestamp) : Nat :=
  match mget dtic.ByMonth timestamp.year with
  | some months =>
    match mget months timestamp.month with
    | some monthIndex => monthIndex
    | none => 0
  | none => 0

/-- GetIndexByDay: nested presence checks, zero when any level is absent. -/
def DateIndexCollector.GetIndexByDay (dtic : DateIndexCollector) (timestamp : Timestamp) : Nat :=
  match mget dtic.ByDay timestamp.year with
  | some months =>
    match mget months timestamp.month with
    | some days =>
      match mget days timestamp.day with
      | some dayIndex => dayIndex
      | none => 0
    | none => 0
  | none => 0

/-- State-passing form of the value-receiver method GetIndexByYear: the
method body reads fields and contains no assignment, so the translated
method returns the receiver exactly as it was received. -/
def DateIndexCollector.GetIndexByYearS (dtic : DateIndexCollector) (timestamp : Timestamp) :
    Nat × DateIndexCollector :=
  (dtic.GetIndexByYear timestamp, dtic)

/-- State-passing form of the value-receiver method GetIndexByMonth. -/
def DateIndexCollector.GetIndexByMonthS (dtic : DateIndexCollector) (timestamp : Timestamp) :
    Nat × DateIndexCollector :=
  (dtic.GetIndexByMonth timestamp, dtic)

/-- State-passing form of the value-receiver method GetIndexByDay. -/
def DateIndexCollector.GetIndexByDayS (dtic : DateIndexCollector) (timestamp : Timestamp) :
    Nat × DateIndexCollector :=
  (dtic.GetIndexByDay timestamp, dtic)

/-- The year counter a Go map read observes, default zero. -/
def byYearVal (c : DateIndexCollector) (y : Int) : Nat :=
  (mget c.ByYear y).getD 0

/-- The year-month counter a nested Go map read observes, default zero. -/
def byMonthVal (c : DateIndexCollector) (y : Int) (m : Nat) : Nat :=
  ((mget c.ByMonth y).bind (fun months => mget months m)).getD 0

/-- The year-month-day counter a nested Go map read observes, default zero. -/
def byDayVal (c : DateIndexCollector) (y : Int) (m : Nat) (d : Nat) : Nat :=
  ((mget c.ByDay y).bind (fun months =>
    (mget months m).bind (fun days => mget days d))).getD 0

/-- Add every timestamp of a list, in order, to a fresh collector. -/
def addAll (ts : List Timestamp) : DateIndexCollector :=
  ts.foldl DateIndexCollector.Add NewDateIndexCollector

/-- The two states of the template scanner of ExtractFileOutputTags:
state 0 of the source is outside, state 1 is inside a tag. -/
inductive ScanState where
  | outside : ScanState
  | inside : ScanState
deriving DecidableEq

/-- One step of the scanner of ExtractFileOutputTags on one rune.
Outside, an opening brace starts a fresh buffer; inside, the tag
captured so far is emitted when the closing brace arrives, and the rune
is then written to the buffer unconditionally, exactly as the source
writes the closing brace itself after appending the tag. -/
def scanStep (st : ScanState × List Char × List String) (r : Char) :
    ScanState × List Char × List String :=
  match st with
  | (.outside, buf, tags) =>
      if r = '{' then (.inside, [], tags) else (.outside, buf, tags)
  | (.inside, buf, tags) =>
      if r = '}' then (.outside, buf ++ [r], tags ++ [String.mk buf])
      else (.inside, buf ++ [r], tags)

/-- ExtractFileOutputTags: run the two-state scanner over the runes of
the pattern and return the emitted tags. -/
def ExtractFileOutputTags (filePattern : String) : List String :=
  (filePattern.data.foldl scanStep (ScanState.outside, [], [])).2.2

/-- Split a character list at every occurrence of a separator character,
the model of strings.Split with a one-character separator. -/
def splitChar (sep : Char) : List Char → List (List Char)
  | [] => [[]]
  | c :: rest =>
    if c = sep then [] :: splitChar sep rest
    else
      match splitChar sep rest with
      | [] => [[c]]
      | g :: gs => (c :: g) :: gs

/-- Model of strings.Split for the one-character separators the source
uses (the vertical bar and the dot). -/
def goSplitOn (sep : Char) (s : String) : List String :=
  (splitChar sep s.data).map String.mk

/-- ParseTagProperties: split the raw tag on dots; the first segment is
the tag, the remaining segments are the properties. -/
def ParseTagProperties (outputTag : String) : String × List String :=
  match goSplitOn '.' outputTag with
  | [] => (outputTag, [])
  | [t] => (t, [])
  | t :: rest => (t, rest)

/-- Check whether the pattern list is an initial segment of the second
list; on success, return the remainder after it. -/
def stripLeading : List Char → List Char → Option (List Char)
  | [], s => some s
  | _ :: _, [] => none
  | t :: ts, c :: cs => if c = t then stripLeading ts cs else none

/-- Replace every occurrence of the target in the character list,
scanning left to right; the fuel is the length of the scanned list,
which bounds the recursion since the target is never empty here. -/
def replaceAllFuel (target value : List Char) : Nat → List Char → List Char
  | _, [] => []
  | 0, s => s
  | fuel + 1, c :: rest =>
    match stripLeading target (c :: rest) with
    | some suffix => value ++ replaceAllFuel target value fuel suffix
    | none => c :: replaceAllFuel target value fuel rest

/-- ReplaceTagInPattern: strings.Replace of every occurrence of the
braced tag by the value. -/
def ReplaceTagInPattern (inputPattern tag value : String) : String :=
  String.mk
    (replaceAllFuel ("\x7b" ++ tag ++ "\x7d").data value.data
      inputPattern.data.length inputPattern.data)

/-- The extension of a file name: the suffix starting at the final dot,
or empty when the name has no dot (filepath.Ext on a bare file name,
which contains no path separator). -/
def fileExt (name : String) : String :=
  let rev := name.data.reverse
  let pre := rev.takeWhile (fun c => c != '.')
  if pre.length = rev.length then "" else String.mk ('.' :: pre.reverse)

/-- strings.Replace of every dot by the empty string. -/
def stripDots (s : String) : String :=
  String.mk (s.data.filter (fun c => c != '.'))

/-- The external metadata capability: a decoded exif block maps a field
name to the raw string value of the field; a missing entry stands for a
Get or StringVal failure, both opaque to the core. -/
def ExifData : Type := List (String × String)

/-- The external collaborators of the core: the stat call, the exif
decode step, the dry-run flag and the outcome of the rename call. -/
structure Env where
  stat : String → Option FileMeta
  decode : String → Option ExifData
  dryRun : Bool
  renameRes : String → String → Option String

/-- The three field names the source treats as timestamp bearing. -/
def isTimestampField (tag : String) : Bool :=
  tag = "DateTime" || tag = "DateTimeOriginal" || tag = "DateTimeDigitized"

/-- GetExifTagValue: look the field up, and for a timestamp-bearing
field parse it and format the first property through TimestampProp; the
formatter is only invoked when at least one property is present, so an
absent property leaves the zero-valued result string.  The none case of
the exif argument stands for a nil exif pointer after a failed decode;
the Go program would dereference nil there, and no theorem below is
stated for inputs that reach this branch. -/
def GetExifTagValue (exifData : Option ExifData) (tag : String) (properties : List String) :
    Except String String :=
  match exifData with
  | none => Except.error "nil exif data"
  | some ed =>
    match mget ed tag with
    | none => Except.error "exif tag lookup failed"
    | some stringTagValue =>
      if isTimestampField tag then
        match parseTimestamp stringTagValue with
        | none => Except.error "timestamp parse failed"
        | some timestamp =>
          match properties with
          | p :: _ => Except.ok (TimestampProp timestamp [p])
          | [] => Except.ok ""
      else Except.ok stringTagValue

/-- GetFileTagValue: stat the file first and fail on a stat failure;
then switch on the first property, the index properties reading the
collector, Extension reading the stat name, and anything else forwarded
to FileProp. -/
def GetFileTagValue (env : Env) (collector : DateIndexCollector) (fileCaptureTime : Timestamp)
    (filePath : String) (tag : String) (properties : List String) : Except String String :=
  match env.stat filePath with
  | none => Except.error "stat failed"
  | some fileMeta =>
    match properties with
    | [] => Except.ok ""
    | p :: _ =>
      if p = "Index" then Except.ok (pad6 collector.Len)
      else if p = "IndexByCaptureYear" then
        Except.ok (pad6 (collector.GetIndexByYear fileCaptureTime))
      else if p = "IndexByCaptureMonth" then
        Except.ok (pad6 (collector.GetIndexByMonth fileCaptureTime))
      else if p = "IndexByCaptureDate" then
        Except.ok (pad6 (collector.GetIndexByDay fileCaptureTime))
      else if p = "Extension" then
        Except.ok (stripDots (fileExt fileMeta.name))
      else Except.ok (FileProp fileMeta properties)

/-- One alternative of a tag group: parse the tag and dispatch on the
File category versus the exif categories, as the switch in GetTagValue. -/
def resolveAlternative (env : Env) (collector : DateIndexCollector) (fileCaptureTime : Timestamp)
    (exifData : Option ExifData) (filePath : String) (outputTag : String) :
    Except String String :=
  let tp := ParseTagProperties outputTag
  if tp.1 = "File" then GetFileTagValue env collector fileCaptureTime filePath tp.1 tp.2
  else GetExifTagValue exifData tp.1 tp.2

/-- The loop of GetTagValue over the alternatives of one tag group: an
erroring alternative is skipped, a successful one overwrites the value
accumulated so far, and the loop always runs to the end of the list
because the break in the source only leaves the switch statement. -/
def GetTagValueLoop (env : Env) (collector : DateIndexCollector) (fileCaptureTime : Timestamp)
    (exifData : Option ExifData) (filePath : String) :
    List String → String → String
  | [], tagValue => tagValue
  | outputTag :: rest, tagValue =>
    match resolveAlternative env collector fileCaptureTime exifData filePath outputTag with
    | Except.ok v => GetTagValueLoop env collector fileCaptureTime exifData filePath rest v
    | Except.error _ => GetTagValueLoop env collector fileCaptureTime exifData filePath rest tagValue

/-- GetTagValue: split the tag group on vertical bars, run the loop from
the zero-valued string, and return with the nil error of the source. -/
def GetTagValue (env : Env) (collector : DateIndexCollector) (fileCaptureTime : Timestamp)
    (exifData : Option ExifData) (filePath : String) (fileTag : String) :
    Except String String :=
  Except.ok (GetTagValueLoop env collector fileCaptureTime exifData filePath
    (goSplitOn '|' fileTag) "")

/-- The capture-time field chain of GetFileCaptureTime: DateTime, then
DateTimeDigitized, then DateTimeOriginal, first present field wins. -/
def captureField (exifData : ExifData) : Option String :=
  match mget exifData "DateTime" with
  | some v => some v
  | none =>
    match mget exifData "DateTimeDigitized" with
    | some v => some v
    | none => mget exifData "DateTimeOriginal"

/-- GetFileCaptureTime: decode the file, read the capture field chain,
parse the value; each failure returns the zero time and the error,
mirroring the triple the source returns. -/
def GetFileCaptureTime (env : Env) (filePath : String) :
    Timestamp × Option ExifData × Option String :=
  match env.decode filePath with
  | none => (Timestamp.zero, none, some "exif decode failed")
  | some exifData =>
    match captureField exifData with
    | none => (Timestamp.zero, some exifData, some "no capture time field")
    | some stringTagValue =>
      match parseTimestamp stringTagValue with
      | none => (Timestamp.zero, some exifData, some "capture time parse failed")
      | some timestamp => (timestamp, some exifData, none)

/-- IncrementCaptureIndex: on success add the capture time to the
collector, on failure return the collector untouched. -/
def IncrementCaptureIndex (env : Env) (filePath : String) (collector : DateIndexCollector) :
    Timestamp × Option ExifData × Option String × DateIndexCollector :=
  match GetFileCaptureTime env filePath with
  | (timestamp, exifData, some e) => (timestamp, exifData, some e, collector)
  | (timestamp, exifData, none) => (timestamp, exifData, none, collector.Add timestamp)

/-- The per-file tag loop of ApplyPattern: resolve each extracted tag
and substitute every occurrence of it; an error from GetTagValue would
abort, exactly as the check in the source, though GetTagValue never
produces one. -/
def renderLoop (env : Env) (collector : DateIndexCollector) (fileCaptureTime : Timestamp)
    (exifData : Option ExifData) (filePath : String) :
    List String → String → Except String String
  | [], outputFilename => Except.ok outputFilename
  | tag :: rest, outputFilename =>
    match GetTagValue env collector fileCaptureTime exifData filePath tag with
    | Except.error e => Except.error e
    | Except.ok value =>
      renderLoop env collector fileCaptureTime exifData filePath rest
        (ReplaceTagInPattern outputFilename tag value)

/-- The file loop of ApplyPattern, with the list of performed outputs
(printed in dry-run mode, renamed otherwise) made explicit.  The error
of the capture-time step is the third component of the tuple; the source
assigns it to a variable and never checks it before rendering, so it is
discarded here in the same way. -/
def ApplyPatternLoop (env : Env) (fileTags : List String) (outputFilePattern : String) :
    List String → DateIndexCollector → List (String × String) →
    Except String (List (String × String))
  | [], _, outs => Except.ok outs
  | file :: rest, collector, outs =>
    let r := IncrementCaptureIndex env file collector
    match renderLoop env r.2.2.2 r.1 r.2.1 file fileTags outputFilePattern with
    | Except.error e => Except.error e
    | Except.ok outputFilename =>
      if env.dryRun then
        ApplyPatternLoop env fileTags outputFilePattern rest r.2.2.2
          (outs ++ [(file, outputFilename)])
      else
        match env.renameRes file outputFilename with
        | some e => Except.error e
        | none =>
          ApplyPatternLoop env fileTags outputFilePattern rest r.2.2.2
            (outs ++ [(file, outputFilename)])

/-- ApplyPattern: run the file loop from a fresh collector and no
performed outputs. -/
def ApplyPattern (env : Env) (fileTags : List String) (outputFilePattern : String)
    (files : List String) : Except String (List (String × String)) :=
  ApplyPatternLoop env fileTags outputFilePattern files NewDateIndexCollector []

/-- The capture timestamp 2016:03:04 10:00:00 used by the scenario of
the specification. -/
def tsMarch : Timestamp :=
  { year := 2016, month := 3, day := 4, hour := 10, minute := 0, second := 0,
    nanosecond := 0, locName := "UTC", offset := 0 }

/-- An exif block whose DateTime field is the March scenario timestamp. -/
def edMarch : ExifData := [("DateTime", "2016:03:04 10:00:00")]

/-- An exif block with no timestamp fields at all. -/
def edEmpty : ExifData := []

/-- An exif block carrying only a Make field. -/
def edMake : ExifData := [("Make", "Canon")]

/-- An exif block with two plain string fields, for exercising the
fallback chain of a tag group. -/
def edTwo : ExifData := [("Make", "Canon"), ("Model", "X100")]

/-- Stat data for a jpg file. -/
def metaJpg (n : String) : FileMeta :=
  { name := n, size := 1000, modTime := Timestamp.zero }

/-- Environment of the rendering scenario: two jpg files, both decoding
to the March capture timestamp, processed in dry-run mode. -/
def envScenario : Env :=
  { stat := fun p =>
      if p = "IMG_1.jpg" then some (metaJpg "IMG_1.jpg")
      else if p = "IMG_2.jpg" then some (metaJpg "IMG_2.jpg")
      else none,
    decode := fun p =>
      if p = "IMG_1.jpg" then some edMarch
      else if p = "IMG_2.jpg" then some edMarch
      else none,
    dryRun := true,
    renameRes := fun _ _ => none }

/-- Environment where the first file decodes but carries no capture
field and the second file carries the March timestamp. -/
def envNoCapture : Env :=
  { stat := fun p =>
      if p = "a.jpg" then some (metaJpg "a.jpg")
      else if p = "b.jpg" then some (metaJpg "b.jpg")
      else none,
    decode := fun p =>
      if p = "a.jpg" then some edEmpty
      else if p = "b.jpg" then some edMarch
      else none,
    dryRun := true,
    renameRes := fun _ _ => none }

/-- Environment whose stat call fails for every path. -/
def envNoStat : Env :=
  { stat := fun _ => none,
    decode := fun _ => some edMake,
    dryRun := true,
    renameRes := fun _ _ => none }

/-- The output pattern of the rendering scenario. -/
def patScenario : String :=
  "{DateTime.Year}{DateTime.Month}_{File.IndexByCaptureDate}.{File.Extension}"


theorem mget_mset_self {α β : Type} [DecidableEq α] (m : List (α × β)) (k : α) (v : β) :
    mget (mset m k v) k = some v := by
  induction m with
  | nil => simp [mget, mset]
  | cons hd tl ih =>
    obtain ⟨k2, v2⟩ := hd
    by_cases h : k = k2
    · simp [mget, mset, h]
    · simp [mget, mset, h, ih]

theorem mget_mset_ne {α β : Type} [DecidableEq α] (m : List (α × β)) (k k2 : α) (v : β)
    (h : k2 ≠ k) : mget (mset m k v) k2 = mget m k2 := by
  induction m with
  | nil => simp [mget, mset, h]
  | cons hd tl ih =>
    obtain ⟨k3, v3⟩ := hd
    by_cases h2 : k = k3
    · subst h2
      simp [mget, mset, h]
    · by_cases h3 : k2 = k3 <;> simp [mget, mset, h2, h3, ih]

theorem count_Add (c : DateIndexCollector) (t : Timestamp) :
    (c.Add t).Count = c.Count + 1 := rfl

theorem byYearVal_Add (c : DateIndexCollector) (t : Timestamp) (y : Int) :
    byYearVal (c.Add t) y = byYearVal c y + (if t.year = y then 1 else 0) := by
  unfold byYearVal DateIndexCollector.Add
  by_cases h : t.year = y
  · subst h
    simp [mget_mset_self]
  · have h2 : y ≠ t.year := fun he => h he.symm
    simp [mget_mset_ne _ _ _ _ h2, h]

theorem byMonthVal_Add (c : DateIndexCollector) (t : Timestamp) (y : Int) (m : Nat) :
    byMonthVal (c.Add t) y m =
      byMonthVal c y m + (if t.year = y ∧ t.month = m then 1 else 0) := by
  unfold byMonthVal DateIndexCollector.Add
  by_cases hy : t.year = y
  · subst hy
    cases hbm : mget c.ByMonth t.year with
    | none =>
      by_cases hm : t.month = m
      · subst hm
        simp [hbm, mget_mset_self, mget]
      · have hm2 : m ≠ t.month := fun he => hm he.symm
        simp [hbm, mget_mset_self, mget_mset_ne _ _ _ _ hm2, mget, hm, hm2]
    | some months =>
      by_cases hm : t.month = m
      · subst hm
        simp [hbm, mget_mset_self]
      · have hm2 : m ≠ t.month := fun he => hm he.symm
        simp [hbm, mget_mset_self, mget_mset_ne _ _ _ _ hm2, hm]
  · have hy2 : y ≠ t.year := fun he => hy he.symm
    cases hbm : mget c.ByMonth t.year with
    | none => simp [hbm, mget_mset_ne _ _ _ _ hy2, hy]
    | some months => simp [hbm, mget_mset_ne _ _ _ _ hy2, hy]

theorem byDayVal_Add (c : DateIndexCollector) (t : Timestamp) (y : Int) (m : Nat) (d : Nat) :
    byDayVal (c.Add t) y m d =
      byDayVal c y m d + (if t.year = y ∧ t.month = m ∧ t.day = d then 1 else 0) := by
  unfold byDayVal DateIndexCollector.Add
  by_cases hy : t.year = y
  · subst hy
    cases hbd : mget c.ByDay t.year with
    | none =>
      by_cases hm : t.month = m
      · subst hm
        by_cases hd : t.day = d
        · subst hd
          simp [hbd, mget_mset_self, mget]
        · have hd2 : d ≠ t.day := fun he => hd he.symm
          simp [hbd, mget_mset_self, mget, mget_mset_ne _ _ _ _ hd2, hd, hd2]
      · have hm2 : m ≠ t.month := fun he => hm he.symm
        simp [hbd, mget_mset_self, mget, mget_mset_ne _ _ _ _ hm2, hm, hm2]
    | some months =>
      by_cases hm : t.month = m
      · subst hm
        cases hmm : mget months t.month with
        | none =>
          by_cases hd : t.day = d
          · subst hd
            simp [hbd, hmm, mget_mset_self, mget]
          · have hd2 : d ≠ t.day := fun he => hd he.symm
            simp [hbd, hmm, mget_mset_self, mget, mget_mset_ne _ _ _ _ hd2, hd, hd2]
        | some days =>
          by_cases hd : t.day = d
          · subst hd
            simp [hbd, hmm, mget_mset_self]
          · have hd2 : d ≠ t.day := fun he => hd he.symm
            simp [hbd, hmm, mget_mset_self, mget_mset_ne _ _ _ _ hd2, hd]
      · have hm2 : m ≠ t.month := fun he => hm he.symm
        cases hmm : mget months t.month with
        | none =>
          simp [hbd, hmm, mget_mset_self, mget_mset_ne _ _ _ _ hm2, hm]
        | some days =>
          simp [hbd, hmm, mget_mset_self, mget_mset_ne _ _ _ _ hm2, hm]
  · have hy2 : y ≠ t.year := fun he => hy he.symm
    cases hbd : mget c.ByDay t.year with
    | none =>
      cases hmm : mget ((mget (mset c.ByDay t.year []) t.year).getD []) t.month with
      | none => simp [hbd, hmm, mget_mset_ne _ _ _ _ hy2, hy]
      | some days => simp [hbd, hmm, mget_mset_ne _ _ _ _ hy2, hy]
    | some months =>
      cases hmm : mget months t.month with
      | none => simp [hbd, hmm, mget_mset_ne _ _ _ _ hy2, hy]
      | some days => simp [hbd, hmm, mget_mset_ne _ _ _ _ hy2, hy]

theorem count_foldl (ts : List Timestamp) (c : DateIndexCollector) :
    (ts.foldl DateIndexCollector.Add c).Count = c.Count + ts.length := by
  induction ts generalizing c with
  | nil => simp
  | cons t ts ih =>
    simp [List.foldl_cons, ih, count_Add]
    omega

theorem byYearVal_foldl (ts : List Timestamp) (c : DateIndexCollector) (y : Int) :
    byYearVal (ts.foldl DateIndexCollector.Add c) y =
      byYearVal c y + ts.countP (fun t => t.year == y) := by
  induction ts generalizing c with
  | nil => simp
  | cons t ts ih =>
    rw [List.foldl_cons, ih, byYearVal_Add, List.countP_cons]
    by_cases h : t.year = y <;> simp [h] <;> omega

theorem byMonthVal_foldl (ts : List Timestamp) (c : DateIndexCollector) (y : Int) (m : Nat) :
    byMonthVal (ts.foldl DateIndexCollector.Add c) y m =
      byMonthVal c y m + ts.countP (fun t => t.year == y && t.month == m) := by
  induction ts generalizing c with
  | nil => simp
  | cons t ts ih =>
    rw [List.foldl_cons, ih, byMonthVal_Add, List.countP_cons]
    by_cases h1 : t.year = y <;> by_cases h2 : t.month = m <;> simp [h1, h2] <;> omega

theorem byDayVal_foldl (ts : List Timestamp) (c : DateIndexCollector) (y : Int) (m d : Nat) :
    byDayVal (ts.foldl DateIndexCollector.Add c) y m d =
      byDayVal c y m d + ts.countP (fun t => t.year == y && t.month == m && t.day == d) := by
  induction ts generalizing c with
  | nil => simp
  | cons t ts ih =>
    rw [List.foldl_cons, ih, byDayVal_Add, List.countP_cons]
    by_cases h1 : t.year = y <;> by_cases h2 : t.month = m <;> by_cases h3 : t.day = d <;>
      simp [h1, h2, h3] <;> omega

theorem countP_le_of_imp {α : Type} (p q : α → Bool) (l : List α)
    (h : ∀ a, p a = true → q a = true) : l.countP p ≤ l.countP q := by
  induction l with
  | nil => simp
  | cons a l ih =>
    rw [List.countP_cons, List.countP_cons]
    by_cases hp : p a = true
    · simp [hp, h a hp]
      omega
    · simp [hp]
      split <;> omega

theorem getIndexByYear_eq (c : DateIndexCollector) (t : Timestamp) :
    c.GetIndexByYear t = byYearVal c t.year := rfl

theorem getIndexByMonth_eq (c : DateIndexCollector) (t : Timestamp) :
    c.GetIndexByMonth t = byMonthVal c t.year t.month := by
  unfold DateIndexCollector.GetIndexByMonth byMonthVal
  cases h1 : mget c.ByMonth t.year with
  | none => simp
  | some months =>
    cases h2 : mget months t.month with
    | none => simp [h2]
    | some v => simp [h2]

theorem getIndexByDay_eq (c : DateIndexCollector) (t : Timestamp) :
    c.GetIndexByDay t = byDayVal c t.year t.month t.day := by
  unfold DateIndexCollector.GetIndexByDay byDayVal
  cases h1 : mget c.ByDay t.year with
  | none => simp
  | some months =>
    cases h2 : mget months t.month with
    | none => simp [h2]
    | some days =>
      cases h3 : mget days t.day with
      | none => simp [h2, h3]
      | some v => simp [h2, h3]

theorem getTagValueLoop_append (env : Env) (c : DateIndexCollector) (t : Timestamp)
    (ed : Option ExifData) (fp : String) (xs : List String) (a : String) (acc : String) :
    GetTagValueLoop env c t ed fp (xs ++ [a]) acc =
      (match resolveAlternative env c t ed fp a with
       | Except.ok v => v
       | Except.error _ => GetTagValueLoop env c t ed fp xs acc) := by
  induction xs generalizing acc with
  | nil =>
    cases ha : resolveAlternative env c t ed fp a <;>
      simp [GetTagValueLoop, ha]
  | cons x xs ih =>
    simp only [List.cons_append, GetTagValueLoop]
    cases hx : resolveAlternative env c t ed fp x <;>
      cases ha : resolveAlternative env c t ed fp a <;>
        simp [GetTagValueLoop, ih, hx, ha]

theorem getTagValueLoop_all_fail (env : Env) (c : DateIndexCollector) (t : Timestamp)
    (ed : Option ExifData) (fp : String) (alts : List String) (acc : String)
    (h : ∀ a ∈ alts, ∃ e, resolveAlternative env c t ed fp a = Except.error e) :
    GetTagValueLoop env c t ed fp alts acc = acc := by
  induction alts with
  | nil => rfl
  | cons a alts ih =>
    obtain ⟨e, he⟩ := h a (List.mem_cons_self a alts)
    simp only [GetTagValueLoop, he]
    exact ih (fun a2 ha2 => h a2 (List.mem_cons_of_mem a ha2))

theorem renderLoop_ok (env : Env) (c : DateIndexCollector) (t : Timestamp)
    (ed : Option ExifData) (fp : String) (tags : List String) (acc : String) :
    ∃ out, renderLoop env c t ed fp tags acc = Except.ok out := by
  induction tags generalizing acc with
  | nil => exact ⟨acc, rfl⟩
  | cons tag rest ih =>
    simp only [renderLoop, GetTagValue]
    exact ih _

theorem applyPatternLoop_extends (env : Env) (ft : List String) (pat : String)
    (files : List String) (c : DateIndexCollector) (outs : List (String × String))
    (res : List (String × String))
    (h : ApplyPatternLoop env ft pat files c outs = Except.ok res) :
    ∃ tail, res = outs ++ tail := by
  induction files generalizing c outs with
  | nil =>
    refine ⟨[], ?_⟩
    simp only [ApplyPatternLoop] at h
    cases h
    simp
  | cons file rest ih =>
    simp only [ApplyPatternLoop] at h
    obtain ⟨out, hout⟩ := renderLoop_ok env (IncrementCaptureIndex env file c).2.2.2
      (IncrementCaptureIndex env file c).1 (IncrementCaptureIndex env file c).2.1 file ft pat
    rw [hout] at h
    dsimp only at h
    by_cases hdry : env.dryRun = true
    · rw [if_pos hdry] at h
      obtain ⟨tail, htail⟩ := ih _ _ h
      exact ⟨(file, out) :: tail, by simp [htail]⟩
    · rw [if_neg hdry] at h
      cases hren : env.renameRes file out with
      | some e => rw [hren] at h; cases h
      | none =>
        rw [hren] at h
        obtain ⟨tail, htail⟩ := ih _ _ h
        exact ⟨(file, out) :: tail, by simp [htail]⟩

/-- Claim C4: for every sequence of N timestamps added to a fresh
DateIndexCollector, Len is N; each year counter equals the number of
adds with that year and grows by exactly one on a matching add and by
zero otherwise; and the month and day counters never exceed the counter
one level up. -/
theorem claim4_collector_invariants (ts : List Timestamp) :
    (addAll ts).Len = ts.length
    ∧ (∀ y : Int, byYearVal (addAll ts) y = ts.countP (fun t => t.year == y))
    ∧ (∀ (t : Timestamp) (y : Int),
        byYearVal (addAll (ts ++ [t])) y =
          byYearVal (addAll ts) y + (if t.year = y then 1 else 0))
    ∧ (∀ (y : Int) (m : Nat), byMonthVal (addAll ts) y m ≤ byYearVal (addAll ts) y)
    ∧ (∀ (y : Int) (m d : Nat), byDayVal (addAll ts) y m d ≤ byMonthVal (addAll ts) y m) := by
  refine ⟨?_, ?_, ?_, ?_, ?_⟩
  · show (ts.foldl DateIndexCollector.Add NewDateIndexCollector).Count = ts.length
    rw [count_foldl, show NewDateIndexCollector.Count = 0 from rfl, Nat.zero_add]
  · intro y
    unfold addAll
    rw [byYearVal_foldl, show byYearVal NewDateIndexCollector y = 0 from rfl, Nat.zero_add]
  · intro t y
    unfold addAll
    rw [List.foldl_append]
    simp only [List.foldl_cons, List.foldl_nil]
    exact byYearVal_Add _ t y
  · intro y m
    unfold addAll
    rw [byMonthVal_foldl, byYearVal_foldl]
    have h0m : byMonthVal NewDateIndexCollector y m = 0 := rfl
    have h0y : byYearVal NewDateIndexCollector y = 0 := rfl
    rw [h0m, h0y]
    simp only [Nat.zero_add]
    refine countP_le_of_imp _ _ ts (fun a ha => ?_)
    rw [Bool.and_eq_true] at ha
    exact ha.1
  · intro y m d
    unfold addAll
    rw [byDayVal_foldl, byMonthVal_foldl]
    have h0d : byDayVal NewDateIndexCollector y m d = 0 := rfl
    have h0m : byMonthVal NewDateIndexCollector y m = 0 := rfl
    rw [h0d, h0m]
    simp only [Nat.zero_add]
    refine countP_le_of_imp _ _ ts (fun a ha => ?_)
    rw [Bool.and_eq_true] at ha
    exact ha.1

/-- Claim C5: ExtractFileOutputTags returns the raw tags in order of
occurrence with duplicates kept, returns nothing for a template without
braces, and drops an unterminated opening brace. -/
theorem claim5_extract_tags_examples :
    ExtractFileOutputTags "{a}_{b}_{a}" = ["a", "b", "a"]
    ∧ ExtractFileOutputTags "no tags here" = []
    ∧ ExtractFileOutputTags "\x7bunterminated" = [] := by
  refine ⟨by decide, by decide, by decide⟩

/-- Claim C6: the three lookups return the current counter of the
corresponding bucket of the collector, they return zero when the
year, year-month, or year-month-day of the timestamp was never added,
and the state-passing renditions of these value-receiver methods leave
every field of the collector unchanged. -/
theorem claim6_lookups_zero_default_pure (ts : List Timestamp) (t : Timestamp) :
    (∀ c : DateIndexCollector,
        c.GetIndexByYear t = byYearVal c t.year
        ∧ c.GetIndexByMonth t = byMonthVal c t.year t.month
        ∧ c.GetIndexByDay t = byDayVal c t.year t.month t.day)
    ∧ ((∀ u ∈ ts, u.year ≠ t.year) → (addAll ts).GetIndexByYear t = 0)
    ∧ ((∀ u ∈ ts, ¬(u.year = t.year ∧ u.month = t.month)) →
        (addAll ts).GetIndexByMonth t = 0)
    ∧ ((∀ u ∈ ts, ¬(u.year = t.year ∧ u.month = t.month ∧ u.day = t.day)) →
        (addAll ts).GetIndexByDay t = 0)
    ∧ (∀ c : DateIndexCollector,
        (c.GetIndexByYearS t).2 = c ∧ (c.GetIndexByMonthS t).2 = c
        ∧ (c.GetIndexByDayS t).2 = c
        ∧ (c.GetIndexByYearS t).2.Count = c.Count
        ∧ (c.GetIndexByYearS t).2.ByYear = c.ByYear
        ∧ (c.GetIndexByYearS t).2.ByMonth = c.ByMonth
        ∧ (c.GetIndexByYearS t).2.ByDay = c.ByDay) := by
  refine ⟨fun c => ⟨getIndexByYear_eq c t, getIndexByMonth_eq c t, getIndexByDay_eq c t⟩,
    ?_, ?_, ?_, fun c => ⟨rfl, rfl, rfl, rfl, rfl, rfl, rfl⟩⟩
  · intro h
    rw [getIndexByYear_eq]
    unfold addAll
    rw [byYearVal_foldl]
    have h0 : byYearVal NewDateIndexCollector t.year = 0 := rfl
    rw [h0, Nat.zero_add]
    rw [List.countP_eq_zero]
    intro a ha hpa
    exact h a ha (by simpa using hpa)
  · intro h
    rw [getIndexByMonth_eq]
    unfold addAll
    rw [byMonthVal_foldl]
    have h0 : byMonthVal NewDateIndexCollector t.year t.month = 0 := rfl
    rw [h0, Nat.zero_add]
    rw [List.countP_eq_zero]
    intro a ha hpa
    rw [Bool.and_eq_true] at hpa
    exact h a ha ⟨by simpa using hpa.1, by simpa using hpa.2⟩
  · intro h
    rw [getIndexByDay_eq]
    unfold addAll
    rw [byDayVal_foldl]
    have h0 : byDayVal NewDateIndexCollector t.year t.month t.day = 0 := rfl
    rw [h0, Nat.zero_add]
    rw [List.countP_eq_zero]
    intro a ha hpa
    rw [Bool.and_eq_true, Bool.and_eq_true] at hpa
    exact h a ha ⟨by simpa using hpa.1.1, by simpa using hpa.1.2, by simpa using hpa.2⟩

/-- Witness for claim C6: one add of the March 2016 timestamp, looked up
at the never-added zero timestamp, yields zero on all three lookups. -/
theorem claim6_lookups_zero_default_pure_witness :
    (addAll [tsMarch]).GetIndexByYear Timestamp.zero = 0
    ∧ (addAll [tsMarch]).GetIndexByMonth Timestamp.zero = 0
    ∧ (addAll [tsMarch]).GetIndexByDay Timestamp.zero = 0 :=
  ⟨(claim6_lookups_zero_default_pure [tsMarch] Timestamp.zero).2.1 (by decide),
   (claim6_lookups_zero_default_pure [tsMarch] Timestamp.zero).2.2.1 (by decide),
   (claim6_lookups_zero_default_pure [tsMarch] Timestamp.zero).2.2.2.1 (by decide)⟩

/-- Claim C8: in the inside state the scanner appends every rune to the
tag buffer, the closing brace itself included, and moves back to the
outside state exactly when the rune is the closing brace, emitting the
buffered tag at that moment. -/
theorem claim8_scanner_inside_step (buf : List Char) (tags : List String) (r : Char) :
    scanStep (ScanState.inside, buf, tags) r =
      ((if r = '}' then ScanState.outside else ScanState.inside),
        buf ++ [r],
        if r = '}' then tags ++ [String.mk buf] else tags) := by
  by_cases h : r = '}' <;> simp [scanStep, h]

/-- Claim C9: the scenario template rendered for the second of two files
whose DateTime decodes to 2016:03:04 10:00:00 yields 201603_000002.jpg,
with the capture-date index zero padded to six digits and the extension
drawn from the original file name without its dot. -/
theorem claim9_scenario_render :
    ApplyPattern envScenario (ExtractFileOutputTags patScenario) patScenario
        ["IMG_1.jpg", "IMG_2.jpg"] =
      Except.ok [("IMG_1.jpg", "201603_000001.jpg"), ("IMG_2.jpg", "201603_000002.jpg")] := by
  rfl

/-- Claim C1: within one tag group the alternatives run left to right
and the last alternative that resolves without error determines the
result; a later failure leaves the earlier value in place; when every
alternative fails the resolved value is the empty string; and GetTagValue
itself never aborts, returning the loop value with the nil error of the
source. -/
theorem claim1_tag_group_last_success_wins (env : Env) (c : DateIndexCollector)
    (t : Timestamp) (ed : Option ExifData) (fp : String) :
    (∀ (xs : List String) (a acc v : String),
        resolveAlternative env c t ed fp a = Except.ok v →
        GetTagValueLoop env c t ed fp (xs ++ [a]) acc = v)
    ∧ (∀ (xs : List String) (a acc e : String),
        resolveAlternative env c t ed fp a = Except.error e →
        GetTagValueLoop env c t ed fp (xs ++ [a]) acc =
          GetTagValueLoop env c t ed fp xs acc)
    ∧ (∀ fileTag : String,
        (∀ a ∈ goSplitOn '|' fileTag,
          ∃ e, resolveAlternative env c t ed fp a = Except.error e) →
        GetTagValue env c t ed fp fileTag = Except.ok "")
    ∧ (∀ fileTag : String,
        GetTagValue env c t ed fp fileTag =
          Except.ok (GetTagValueLoop env c t ed fp (goSplitOn '|' fileTag) "")) := by
  refine ⟨?_, ?_, ?_, fun _ => rfl⟩
  · intro xs a acc v h
    rw [getTagValueLoop_append, h]
  · intro xs a acc e h
    rw [getTagValueLoop_append, h]
  · intro fileTag h
    unfold GetTagValue
    rw [getTagValueLoop_all_fail env c t ed fp _ _ h]

/-- Witness for claim C1 on concrete data: with Make and Model both
present, the later alternative Model overwrites the earlier Make; with a
failing later alternative, the loop keeps the earlier state; and a group
whose alternatives all fail resolves to the empty string without error. -/
theorem claim1_tag_group_last_success_wins_witness :
    GetTagValueLoop envNoStat NewDateIndexCollector Timestamp.zero (some edTwo) "f.jpg"
        (["Make"] ++ ["Model"]) "" = "X100"
    ∧ GetTagValueLoop envNoStat NewDateIndexCollector Timestamp.zero (some edTwo) "f.jpg"
        (["Make"] ++ ["Nope"]) "" =
      GetTagValueLoop envNoStat NewDateIndexCollector Timestamp.zero (some edTwo) "f.jpg"
        ["Make"] ""
    ∧ GetTagValue envNoStat NewDateIndexCollector Timestamp.zero (some edTwo) "f.jpg"
        "Nope|Missing" = Except.ok "" := by
  refine ⟨?_, ?_, ?_⟩
  · exact (claim1_tag_group_last_success_wins envNoStat NewDateIndexCollector Timestamp.zero
      (some edTwo) "f.jpg").1 ["Make"] "Model" "" "X100" rfl
  · exact (claim1_tag_group_last_success_wins envNoStat NewDateIndexCollector Timestamp.zero
      (some edTwo) "f.jpg").2.1 ["Make"] "Nope" "" "exif tag lookup failed" rfl
  · refine (claim1_tag_group_last_success_wins envNoStat NewDateIndexCollector Timestamp.zero
      (some edTwo) "f.jpg").2.2.1 "Nope|Missing" ?_
    have hsplit : goSplitOn '|' "Nope|Missing" = ["Nope", "Missing"] := by decide
    rw [hsplit]
    intro a ha
    simp only [List.mem_cons, List.not_mem_nil, or_false] at ha
    rcases ha with rfl | rfl
    · exact ⟨"exif tag lookup failed", rfl⟩
    · exact ⟨"exif tag lookup failed", rfl⟩

/-- Counterexample to claim C2: in this concrete batch the first file
decodes but carries none of the three capture-time fields, so the
capture-time step fails, yet ApplyPattern renders both the failing file
and the one after it and returns without error, instead of stopping. -/
theorem claim2_counterexample :
    (GetFileCaptureTime envNoCapture "a.jpg").2.2 = some "no capture time field"
    ∧ ApplyPattern envNoCapture ["DateTime.Year"] "{DateTime.Year}" ["a.jpg", "b.jpg"] =
        Except.ok [("a.jpg", ""), ("b.jpg", "2016")] :=
  ⟨rfl, rfl⟩

/-- Claim C2 as amended: the error of the capture-time step is assigned
and never checked by ApplyPattern, so in dry-run mode the failing file
is still rendered, its output is emitted, and the loop continues with
the remaining files on the unchanged collector. -/
theorem claim2_amended_capture_error_discarded (env : Env) (ft : List String) (pat : String)
    (file : String) (rest : List String) (c : DateIndexCollector)
    (outs : List (String × String)) (ed : ExifData) (e : String)
    (hdry : env.dryRun = true)
    (hcap : GetFileCaptureTime env file = (Timestamp.zero, some ed, some e)) :
    ∃ out, renderLoop env c Timestamp.zero (some ed) file ft pat = Except.ok out
      ∧ ApplyPatternLoop env ft pat (file :: rest) c outs =
          ApplyPatternLoop env ft pat rest c (outs ++ [(file, out)]) := by
  obtain ⟨out, hout⟩ := renderLoop_ok env c Timestamp.zero (some ed) file ft pat
  refine ⟨out, hout, ?_⟩
  show (match renderLoop env (IncrementCaptureIndex env file c).2.2.2
          (IncrementCaptureIndex env file c).1 (IncrementCaptureIndex env file c).2.1
          file ft pat with
        | Except.error e2 => Except.error e2
        | Except.ok outputFilename =>
          if env.dryRun then
            ApplyPatternLoop env ft pat rest (IncrementCaptureIndex env file c).2.2.2
              (outs ++ [(file, outputFilename)])
          else
            match env.renameRes file outputFilename with
            | some e2 => Except.error e2
            | none =>
              ApplyPatternLoop env ft pat rest (IncrementCaptureIndex env file c).2.2.2
                (outs ++ [(file, outputFilename)])) =
      ApplyPatternLoop env ft pat rest c (outs ++ [(file, out)])
  have hinc : IncrementCaptureIndex env file c = (Timestamp.zero, some ed, some e, c) := by
    unfold IncrementCaptureIndex
    rw [hcap]
  rw [hinc]
  simp only
  rw [hout]
  simp [hdry]

/-- Witness for the amended claim C2 at the concrete no-capture batch. -/
theorem claim2_amended_capture_error_discarded_witness :
    ∃ out, renderLoop envNoCapture NewDateIndexCollector Timestamp.zero (some edEmpty)
        "a.jpg" ["DateTime.Year"] "{DateTime.Year}" = Except.ok out
      ∧ ApplyPatternLoop envNoCapture ["DateTime.Year"] "{DateTime.Year}"
          ("a.jpg" :: ["b.jpg"]) NewDateIndexCollector [] =
        ApplyPatternLoop envNoCapture ["DateTime.Year"] "{DateTime.Year}"
          ["b.jpg"] NewDateIndexCollector ([] ++ [("a.jpg", out)]) :=
  claim2_amended_capture_error_discarded envNoCapture ["DateTime.Year"] "{DateTime.Year}"
    "a.jpg" ["b.jpg"] NewDateIndexCollector [] edEmpty "no capture time field" rfl rfl

/-- Claim C3: when the capture-time step fails for a file, the collector
is passed on without an Add, the renderer still produces an output string
for the file, each index-by-capture tag resolves to the bucket of the
unchanged collector at the zero timestamp the failed step returned, and
outputs once emitted are final, never corrected by later files. -/
theorem claim3_capture_failure_renders_without_add (env : Env) (ft : List String)
    (pat : String) (file : String) (c : DateIndexCollector) (meta : FileMeta)
    (ed : ExifData) (e : String)
    (hcap : GetFileCaptureTime env file = (Timestamp.zero, some ed, some e))
    (hstat : env.stat file = some meta) :
    (IncrementCaptureIndex env file c).2.2.2 = c
    ∧ (∃ out, renderLoop env c Timestamp.zero (some ed) file ft pat = Except.ok out)
    ∧ GetTagValue env c Timestamp.zero (some ed) file "File.IndexByCaptureYear" =
        Except.ok (pad6 (c.GetIndexByYear Timestamp.zero))
    ∧ GetTagValue env c Timestamp.zero (some ed) file "File.IndexByCaptureMonth" =
        Except.ok (pad6 (c.GetIndexByMonth Timestamp.zero))
    ∧ GetTagValue env c Timestamp.zero (some ed) file "File.IndexByCaptureDate" =
        Except.ok (pad6 (c.GetIndexByDay Timestamp.zero))
    ∧ (∀ (files : List String) (c2 : DateIndexCollector) (outs res : List (String × String)),
        ApplyPatternLoop env ft pat files c2 outs = Except.ok res →
        ∃ tail, res = outs ++ tail) := by
  refine ⟨?_, renderLoop_ok env c Timestamp.zero (some ed) file ft pat,
    ?_, ?_, ?_, fun files c2 outs res h => applyPatternLoop_extends env ft pat files c2 outs res h⟩
  · unfold IncrementCaptureIndex
    rw [hcap]
  · have hsplit : goSplitOn '|' "File.IndexByCaptureYear" = ["File.IndexByCaptureYear"] := by
      decide
    have hparse : ParseTagProperties "File.IndexByCaptureYear" =
        ("File", ["IndexByCaptureYear"]) := by decide
    unfold GetTagValue
    rw [hsplit]
    unfold GetTagValueLoop resolveAlternative
    rw [hparse]
    simp only [GetFileTagValue, hstat]
    rfl
  · have hsplit : goSplitOn '|' "File.IndexByCaptureMonth" = ["File.IndexByCaptureMonth"] := by
      decide
    have hparse : ParseTagProperties "File.IndexByCaptureMonth" =
        ("File", ["IndexByCaptureMonth"]) := by decide
    unfold GetTagValue
    rw [hsplit]
    unfold GetTagValueLoop resolveAlternative
    rw [hparse]
    simp only [GetFileTagValue, hstat]
    rfl
  · have hsplit : goSplitOn '|' "File.IndexByCaptureDate" = ["File.IndexByCaptureDate"] := by
      decide
    have hparse : ParseTagProperties "File.IndexByCaptureDate" =
        ("File", ["IndexByCaptureDate"]) := by decide
    unfold GetTagValue
    rw [hsplit]
    unfold GetTagValueLoop resolveAlternative
    rw [hparse]
    simp only [GetFileTagValue, hstat]
    rfl

/-- Witness for claim C3 at the concrete no-capture batch: the first
file has no capture field, the collector stays fresh, the render
succeeds, and the three index tags read the zero-state buckets. -/
theorem claim3_capture_failure_renders_without_add_witness :
    (IncrementCaptureIndex envNoCapture "a.jpg" NewDateIndexCollector).2.2.2 =
        NewDateIndexCollector
    ∧ (∃ out, renderLoop envNoCapture NewDateIndexCollector Timestamp.zero (some edEmpty)
        "a.jpg" ["DateTime.Year"] "{DateTime.Year}" = Except.ok out)
    ∧ GetTagValue envNoCapture NewDateIndexCollector Timestamp.zero (some edEmpty) "a.jpg"
        "File.IndexByCaptureYear" =
      Except.ok (pad6 (NewDateIndexCollector.GetIndexByYear Timestamp.zero))
    ∧ GetTagValue envNoCapture NewDateIndexCollector Timestamp.zero (some edEmpty) "a.jpg"
        "File.IndexByCaptureMonth" =
      Except.ok (pad6 (NewDateIndexCollector.GetIndexByMonth Timestamp.zero))
    ∧ GetTagValue envNoCapture NewDateIndexCollector Timestamp.zero (some edEmpty) "a.jpg"
        "File.IndexByCaptureDate" =
      Except.ok (pad6 (NewDateIndexCollector.GetIndexByDay Timestamp.zero))
    ∧ (∀ (files : List String) (c2 : DateIndexCollector) (outs res : List (String × String)),
        ApplyPatternLoop envNoCapture ["DateTime.Year"] "{DateTime.Year}" files c2 outs =
          Except.ok res →
        ∃ tail, res = outs ++ tail) :=
  claim3_capture_failure_renders_without_add envNoCapture ["DateTime.Year"] "{DateTime.Year}"
    "a.jpg" NewDateIndexCollector (metaJpg "a.jpg") edEmpty "no capture time field" rfl rfl

/-- Counterexample to claim C7: with a present and parseable DateTime
field but an absent property name, GetExifTagValue returns the empty
string, not the full standard timestamp string of the parsed value. -/
theorem claim7_counterexample :
    GetExifTagValue (some edMarch) "DateTime" [] = Except.ok ""
    ∧ TimestampProp tsMarch [] = "2016-03-04T10:00:00Z"
    ∧ ("" : String) ≠ "2016-03-04T10:00:00Z" :=
  ⟨rfl, rfl, by decide⟩

/-- Claim C7 as amended: for a timestamp-bearing field that is present
and parses, an unrecognised property name falls back to the full RFC
3339 timestamp string without error, while an absent property name
yields the empty string without error. -/
theorem claim7_amended_unknown_prop_full_timestamp (ed : ExifData) (tag v : String)
    (t : Timestamp) (p : String) (ps : List String)
    (h1 : isTimestampField tag = true)
    (h2 : mget ed tag = some v)
    (h3 : parseTimestamp v = some t)
    (h4 : p ∉ timestampPropNames) :
    GetExifTagValue (some ed) tag (p :: ps) = Except.ok (formatRFC3339 t)
    ∧ GetExifTagValue (some ed) tag [] = Except.ok "" := by
  have h5 : ¬(p = "Year" ∨ p = "Month" ∨ p = "Day" ∨ p = "Hour" ∨ p = "Minute" ∨
      p = "Second" ∨ p = "Nanosecond" ∨ p = "Unix" ∨ p = "Weekday" ∨ p = "Offset") := by
    intro hor
    apply h4
    simp only [timestampPropNames, List.mem_cons, List.not_mem_nil, or_false]
    exact hor
  push_neg at h5
  obtain ⟨n1, n2, n3, n4, n5, n6, n7, n8, n9, n10⟩ := h5
  constructor
  · simp only [GetExifTagValue, h2, h1, if_true, h3]
    simp [TimestampProp, n1, n2, n3, n4, n5, n6, n7, n8, n9, n10]
  · simp only [GetExifTagValue, h2, h1, if_true, h3]

/-- Witness for the amended claim C7: the unknown property name Bogus on
a present DateTime field yields the RFC 3339 string of the March 2016
timestamp, and the bare DateTime tag yields the empty string. -/
theorem claim7_amended_unknown_prop_full_timestamp_witness :
    GetExifTagValue (some edMarch) "DateTime" ["Bogus"] =
        Except.ok (formatRFC3339 tsMarch)
    ∧ GetExifTagValue (some edMarch) "DateTime" [] = Except.ok "" :=
  claim7_amended_unknown_prop_full_timestamp edMarch "DateTime" "2016:03:04 10:00:00"
    tsMarch "Bogus" [] rfl rfl (by decide) (by decide)

/-- Claim C10: a File-category alternative stats the file before the
property switch, so a stat failure makes the whole alternative fail,
also for the four index properties whose values depend only on the
collector and the capture timestamp, and a failing File alternative is
skipped in the fallback chain of the tag group. -/
theorem claim10_file_alternative_requires_stat (env : Env) (c : DateIndexCollector)
    (t : Timestamp) (fp : String) (tg : String) (props : List String)
    (hstat : env.stat fp = none) :
    GetFileTagValue env c t fp tg props = Except.error "stat failed"
    ∧ (∀ (ed : Option ExifData) (xs : List String) (a acc : String),
        (ParseTagProperties a).1 = "File" →
        GetTagValueLoop env c t ed fp (xs ++ [a]) acc =
          GetTagValueLoop env c t ed fp xs acc) := by
  have herr : ∀ props2, GetFileTagValue env c t fp "File" props2 =
      Except.error "stat failed" := by
    intro props2
    unfold GetFileTagValue
    rw [hstat]
  constructor
  · unfold GetFileTagValue
    rw [hstat]
  · intro ed xs a acc hfile
    rw [getTagValueLoop_append]
    have hres : resolveAlternative env c t ed fp a = Except.error "stat failed" := by
      unfold resolveAlternative
      dsimp only
      rw [hfile, if_pos rfl]
      exact herr _
    rw [hres]

/-- Witness for claim C10: with a failing stat, the File.Index
alternative errors even though its value would only read the collector,
and the alternative is skipped after a successful Make alternative. -/
theorem claim10_file_alternative_requires_stat_witness :
    GetFileTagValue envNoStat NewDateIndexCollector Timestamp.zero "x.jpg" "File" ["Index"] =
        Except.error "stat failed"
    ∧ GetTagValueLoop envNoStat NewDateIndexCollector Timestamp.zero (some edMake) "x.jpg"
        (["Make"] ++ ["File.Index"]) "" =
      GetTagValueLoop envNoStat NewDateIndexCollector Timestamp.zero (some edMake) "x.jpg"
        ["Make"] "" :=
  ⟨(claim10_file_alternative_requires_stat envNoStat NewDateIndexCollector Timestamp.zero
      "x.jpg" "File" ["Index"] rfl).1,
   (claim10_file_alternative_requires_stat envNoStat NewDateIndexCollector Timestamp.zero
      "x.jpg" "File" ["Index"] rfl).2 (some edMake) ["Make"] "File.Index" "" (by decide)⟩

end ImageRename
